import Mathlib

/-!
Shallow embedding of the core read-processing logic of the preprocess16S
repository (src/preprocess16S.py and src/read_merging_16S.py).

Python strings are modelled as `List Char`; fallible operations
(string indexing, dict lookup, division by zero) return `Except PyErr`.
Float comparisons of the form `score / span >= num / den` are modelled by
exact integer cross-multiplication.  For the magnitudes occurring in this
program (spans and scores far below 2 ^ 40) the exact comparison agrees with
the IEEE-double comparison performed by the source: the two compared
rationals are either equal (hence equal as correctly rounded doubles) or
differ by far more than one unit in the last place.
-/

/-- Runtime errors of the modelled Python fragments. -/
inductive PyErr
  | indexError
  | keyError
  | zeroDiv
deriving DecidableEq

/-- A FASTQ record restricted to the fields the core logic reads:
the sequence line and the quality line. -/
structure FastqRec where
  seq : List Char
  qual : List Char
deriving DecidableEq

/-- Effective index of a Python slice bound `i` on a sequence of length `n`:
negative values count from the end and clamp at 0; values past the end are
handled by `List.take` / `List.drop` saturation. -/
def pyEff (n : Nat) (i : Int) : Nat :=
  if i < 0 then ((n : Int) + i).toNat else i.toNat

/-- Python slice `l[i:]`. -/
def pySliceFrom (l : List Char) (i : Int) : List Char :=
  l.drop (pyEff l.length i)

/-- Python slice `l[:i]`. -/
def pySliceTo (l : List Char) (i : Int) : List Char :=
  l.take (pyEff l.length i)

/-- Python string indexing `l[i]`: negative indices count from the end,
anything out of range raises IndexError. -/
def pyIndex (l : List Char) (i : Int) : Except PyErr Char :=
  if 0 ≤ i ∧ i < l.length then .ok (l.getD i.toNat 'A')
  else if -(l.length : Int) ≤ i ∧ i < 0 then .ok (l.getD ((l.length : Int) + i).toNat 'A')
  else .error .indexError

/-- `MATCH_DICT` of src/preprocess16S.py lines 301-307: for each concrete read
nucleotide, the primer symbols it matches; a read character outside the
dictionary keys raises KeyError. -/
def MATCH_DICT (c : Char) : Except PyErr (List Char) :=
  if c = 'A' then .ok ['A', 'N', 'R', 'W', 'M', 'D', 'H', 'V']
  else if c = 'G' then .ok ['G', 'N', 'R', 'S', 'K', 'B', 'D', 'V']
  else if c = 'C' then .ok ['C', 'N', 'Y', 'S', 'M', 'B', 'H', 'V']
  else if c = 'T' then .ok ['T', 'N', 'Y', 'W', 'K', 'B', 'D', 'H']
  else if c = 'N' then .ok []
  else .error .keyError

/-- Models the source comparison `score / span >= num / den` (float division in
Python).  `span = 0` raises ZeroDivisionError.  At every call site a negative
`span` forces `score = 0` (the scoring loop is empty), and
`0 / span = -0.0 >= num / den` holds exactly when `num = 0`. -/
def ratGE (score : Nat) (span : Int) (num den : Nat) : Except PyErr Bool :=
  if span = 0 then .error .zeroDiv
  else if 0 < span then .ok (decide (num * span.toNat ≤ score * den))
  else .ok (decide (num = 0))

/-- Models the source comparison `score / span > num / den` for positive
`num / den` (the source constant is 0.90); `span = 0` raises
ZeroDivisionError, and a nonpositive quotient is never `> num / den`. -/
def ratGT (score : Nat) (span : Int) (num den : Nat) : Except PyErr Bool :=
  if span = 0 then .error .zeroDiv
  else if 0 < span then .ok (decide (num * span.toNat < score * den))
  else .ok false

/-- The first scoring loop of `find_primer` (src/preprocess16S.py lines
485-488): for `pos` in `range(primer_len - shift)`, count positions with
`primer[pos + shift] in MATCH_DICT[read[pos]]`.  Parameters: current `pos`
and remaining iteration count. -/
def primerScore1 (primer read : List Char) (shift : Nat) : Nat → Nat → Except PyErr Nat
  | _, 0 => .ok 0
  | pos, rem + 1 =>
    match pyIndex primer ((pos + shift : Nat) : Int) with
    | .error e => .error e
    | .ok pc =>
      match pyIndex read (pos : Int) with
      | .error e => .error e
      | .ok rb =>
        match MATCH_DICT rb with
        | .error e => .error e
        | .ok compat =>
          match primerScore1 primer read shift (pos + 1) rem with
          | .error e => .error e
          | .ok rest => .ok ((if pc ∈ compat then 1 else 0) + rest)

/-- The second scoring loop of `find_primer` (src/preprocess16S.py lines
506-508, after the internal `shift += 1`): for `pos` in
`range(primer_len - shift)`, count positions with
`primer[pos] in MATCH_DICT[read[pos + shift]]`. -/
def primerScore2 (primer read : List Char) (shift : Nat) : Nat → Nat → Except PyErr Nat
  | _, 0 => .ok 0
  | pos, rem + 1 =>
    match pyIndex primer (pos : Int) with
    | .error e => .error e
    | .ok pc =>
      match pyIndex read ((pos + shift : Nat) : Int) with
      | .error e => .error e
      | .ok rb =>
        match MATCH_DICT rb with
        | .error e => .error e
        | .ok compat =>
          match primerScore2 primer read shift (pos + 1) rem with
          | .error e => .error e
          | .ok rest => .ok ((if pc ∈ compat then 1 else 0) + rest)

/-- Trimming on a successful trial (src/preprocess16S.py lines 491-499 and
511-519): with cutoff enabled, `cutlen = len(primer) - shift` characters are
sliced off sequence and quality string; otherwise the record is unchanged. -/
def trim (plen shift : Nat) (rcd : FastqRec) (cutoff : Bool) : FastqRec :=
  if cutoff then
    ⟨pySliceFrom rcd.seq ((plen : Int) - shift), pySliceFrom rcd.qual ((plen : Int) - shift)⟩
  else rcd

/-- One iteration of the shift loop of `find_primer` (src/preprocess16S.py
lines 482-521): the primer-shifted trial at `shift`, then (after the source's
internal `shift += 1`) the read-shifted trial at `shift + 1`. -/
def scan_shift (num den : Nat) (cutoff : Bool) (p : List Char) (rcd : FastqRec) (shift : Nat) :
    Except PyErr (Option FastqRec) :=
  match primerScore1 p rcd.seq shift 0 (p.length - shift) with
  | .error e => .error e
  | .ok s1 =>
    match ratGE s1 ((p.length : Int) - shift) num den with
    | .error e => .error e
    | .ok true => .ok (some (trim p.length shift rcd cutoff))
    | .ok false =>
      match primerScore2 p rcd.seq (shift + 1) 0 (p.length - (shift + 1)) with
      | .error e => .error e
      | .ok s2 =>
        match ratGE s2 ((p.length : Int) - (shift + 1)) num den with
        | .error e => .error e
        | .ok true => .ok (some (trim p.length (shift + 1) rcd cutoff))
        | .ok false => .ok none

/-- The shift loop `for shift in range(0, MAX_SHIFT + 1)` for one primer;
`rem` counts the remaining iterations. -/
def scanPrimer_go (num den : Nat) (cutoff : Bool) (p : List Char) (rcd : FastqRec) :
    Nat → Nat → Except PyErr (Option FastqRec)
  | _, 0 => .ok none
  | shift, rem + 1 =>
    match scan_shift num den cutoff p rcd shift with
    | .error e => .error e
    | .ok (some r1) => .ok (some r1)
    | .ok none => scanPrimer_go num den cutoff p rcd (shift + 1) rem

/-- Scan one primer against a read over shifts `0 .. maxShift`
(source constant `MAX_SHIFT = 4`). -/
def scanPrimer (maxShift num den : Nat) (cutoff : Bool) (p : List Char) (rcd : FastqRec) :
    Except PyErr (Option FastqRec) :=
  scanPrimer_go num den cutoff p rcd 0 (maxShift + 1)

/-- `find_primer` of src/preprocess16S.py lines 461-524.  The primer argument
models the Python iterable: the returned list is what remains of it after the
call (a Python list iterates from the start every time, so callers holding a
list discard the remainder; the one-shot iterator `rev_primers` of line 869
is modelled by threading the remainder through successive calls).
Source thresholds: `RECOGN_PERCENTAGE = 0.52`, i.e. `num/den = 13/25`. -/
def find_primer (maxShift num den : Nat) (cutoff : Bool) :
    List (List Char) → FastqRec → Except PyErr (Bool × FastqRec × List (List Char))
  | [], rcd => .ok (false, rcd, [])
  | p :: rest, rcd =>
    match scanPrimer maxShift num den cutoff p rcd with
    | .error e => .error e
    | .ok (some r1) => .ok (true, r1, rest)
    | .ok none => find_primer maxShift num den cutoff rest rcd

/-- `find_primer_organizer` of src/preprocess16S.py lines 600-614 for one read
pair: R1 is scanned against the (re-iterable) forward primer list, R2 against
the current state of the one-shot `rev_primers` iterator, whose remainder is
returned.  A pair is kept when either read matched. -/
def find_primer_organizer (maxShift num den : Nat) (cutoff : Bool)
    (fwd revIter : List (List Char)) (recs : FastqRec × FastqRec) :
    Except PyErr (Bool × List (List Char)) :=
  match find_primer maxShift num den cutoff fwd recs.1 with
  | .error e => .error e
  | .ok (in1, _, _) =>
    match find_primer maxShift num den cutoff revIter recs.2 with
    | .error e => .error e
    | .ok (in2, _, rest) => .ok (in1 || in2, rest)

/-- The per-pair processing loop of `progress_counter`/`find_primer_organizer`:
classify each pair in stream order, threading the `rev_primers` iterator state
and accumulating the match/trash counters. -/
def processPairs (maxShift num den : Nat) (cutoff : Bool) (fwd : List (List Char)) :
    List (FastqRec × FastqRec) → List (List Char) → Except PyErr (List Bool × Nat × Nat)
  | [], _ => .ok ([], 0, 0)
  | pr :: rest, revIter =>
    match find_primer_organizer maxShift num den cutoff fwd revIter pr with
    | .error e => .error e
    | .ok (kept, revIter2) =>
      match processPairs maxShift num den cutoff fwd rest revIter2 with
      | .error e => .error e
      | .ok (cls, m, t) =>
        .ok (kept :: cls, (if kept then 1 else 0) + m, (if kept then 0 else 1) + t)

/-- `_RC_DICT` of src/read_merging_16S.py lines 45-52; a character outside the
dictionary raises KeyError. -/
def RC_DICT (c : Char) : Except PyErr Char :=
  if c = 'A' then .ok 'T'
  else if c = 'T' then .ok 'A'
  else if c = 'C' then .ok 'G'
  else if c = 'G' then .ok 'C'
  else if c = 'U' then .ok 'A'
  else if c = 'N' then .ok 'N'
  else .error .keyError

/-- Complement every character of an (already reversed) sequence. -/
def rc_go : List Char → Except PyErr (List Char)
  | [] => .ok []
  | c :: rest =>
    match RC_DICT c with
    | .error e => .error e
    | .ok c2 =>
      match rc_go rest with
      | .error e => .error e
      | .ok r2 => .ok (c2 :: r2)

/-- `_rc` of src/read_merging_16S.py line 54: reverse, then complement each
character. -/
def rc (seq : List Char) : Except PyErr (List Char) :=
  rc_go seq.reverse

/-- The seed slice of `_naive_align` (src/read_merging_16S.py line 112):
`fseq[len(fseq) - SEED_LEN - 1 :]`. -/
def naive_align_seed (seedLen : Nat) (fseq : List Char) : List Char :=
  pySliceFrom fseq ((fseq.length : Int) - seedLen - 1)

/-- The inner scoring loop of `_naive_align` (lines 115-118): for `pos` in
`range(SEED_LEN)`, count positions with `seed[pos] == rseq[pos + shift]`. -/
def naiveScore (seed rseq : List Char) (shift : Nat) : Nat → Nat → Except PyErr Nat
  | _, 0 => .ok 0
  | pos, rem + 1 =>
    match pyIndex seed (pos : Int) with
    | .error e => .error e
    | .ok c1 =>
      match pyIndex rseq ((pos + shift : Nat) : Int) with
      | .error e => .error e
      | .ok c2 =>
        match naiveScore seed rseq shift (pos + 1) rem with
        | .error e => .error e
        | .ok rest => .ok ((if c1 = c2 then 1 else 0) + rest)

/-- The shift loop of `_naive_align` (lines 114-121): `for shift in
range(MAX_SHIFT)`; accept the first shift with
`score / SEED_LEN > MIN_PIDENT` (source constant 0.90, hence `9/10`). -/
def naive_align_go (seed rseq : List Char) (seedLen : Nat) : Nat → Nat → Except PyErr Int
  | _, 0 => .ok (-1)
  | shift, rem + 1 =>
    match naiveScore seed rseq shift 0 seedLen with
    | .error e => .error e
    | .ok sc =>
      match ratGT sc (seedLen : Int) 9 10 with
      | .error e => .error e
      | .ok b =>
        if b then .ok (shift : Int) else naive_align_go seed rseq seedLen (shift + 1) rem

/-- `_naive_align` of src/read_merging_16S.py lines 101-123, parametrised by
the module constants `SEED_LEN` (source value 11) and `MAX_SHIFT` (source
value 120). -/
def naive_align (seedLen maxShift : Nat) (fseq rseq : List Char) : Except PyErr Int :=
  naive_align_go (naive_align_seed seedLen fseq) rseq seedLen 0 maxShift

/-- The overlap loop of `_merge_by_overlap` (src/read_merging_16S.py lines
186-195): `for i, j in zip(range(loffset, loffset + overl), range(overl))`,
keep the base/quality from whichever read scores at least as high (ties favour
the forward read, via the source's `>=`). -/
def overlap_loop (loffset : Int) (fseq fqual rseq rqual : List Char) :
    Nat → Nat → Except PyErr (List Char × List Char)
  | _, 0 => .ok ([], [])
  | j, rem + 1 =>
    match pyIndex fqual (loffset + j) with
    | .error e => .error e
    | .ok fqc =>
      match pyIndex rqual (j : Int) with
      | .error e => .error e
      | .ok rqc =>
        match (if rqc.toNat ≤ fqc.toNat then
                 match pyIndex fseq (loffset + j) with
                 | .error e => .error e
                 | .ok c => .ok (fqc, c)
               else
                 match pyIndex rseq (j : Int) with
                 | .error e => .error e
                 | .ok c => .ok (rqc, c) : Except PyErr (Char × Char)) with
        | .error e => .error e
        | .ok (q, nu) =>
          match overlap_loop loffset fseq fqual rseq rqual (j + 1) rem with
          | .error e => .error e
          | .ok (ms, mq) => .ok (nu :: ms, q :: mq)

/-- `_merge_by_overlap` of src/read_merging_16S.py lines 162-201: forward
prefix before the overlap, quality-weighted consensus over the overlap, then
the reverse read's suffix after the overlap. -/
def merge_by_overlap (loffset overl : Int) (fseq fqual rseq rqual : List Char) :
    Except PyErr (List Char × List Char) :=
  match overlap_loop loffset fseq fqual rseq rqual 0 overl.toNat with
  | .error e => .error e
  | .ok (ms, mq) =>
    .ok (pySliceTo fseq loffset ++ ms ++ pySliceFrom rseq overl,
         pySliceTo fqual loffset ++ mq ++ pySliceFrom rqual overl)

/-- Result of the first phase of `merge_reads` (src/read_merging_16S.py lines
389-409), everything that happens before any external-aligner call:
`tooShort` models `return 2` from the bare `except`, `mergedOk` models
`return 0` after a successful naive alignment and merge, and `fallthrough`
marks the transfer to `_al_ag_one_anoth` (the external aligner). -/
inductive Phase1Result
  | tooShort
  | mergedOk (res : List Char × List Char)
  | fallthrough
deriving DecidableEq

/-- Lines 381-409 of `merge_reads`: reverse-complement the raw reverse read,
reverse its quality string, run `_naive_align`; any exception there yields
`return 2`; a shift other than `-1` leads to `_merge_by_overlap` with
`overl = shift + SEED_LEN` and `loffset = len(fseq) - overl - 1` and
`return 0`.  An exception inside `_merge_by_overlap` is not caught by the
source and propagates. -/
def merge_reads_phase1 (seedLen maxShift : Nat) (fseq fqual rseq2 rqual2 : List Char) :
    Except PyErr Phase1Result :=
  match rc rseq2 with
  | .error e => .error e
  | .ok rseq =>
    let rqual := rqual2.reverse
    match naive_align seedLen maxShift fseq rseq with
    | .error _ => .ok .tooShort
    | .ok shift =>
      if shift = -1 then .ok .fallthrough
      else
        match merge_by_overlap ((fseq.length : Int) - (shift + (seedLen : Int)) - 1)
            (shift + (seedLen : Int)) fseq fqual rseq rqual with
        | .error e => .error e
        | .ok p => .ok (.mergedOk p)

/-- Source constant `MAX_ALIGN_OFFSET = 40` (src/read_merging_16S.py line 68). -/
def MAX_ALIGN_OFFSET : Int := 40

/-- Source constant `MIN_OVERLAP = 11` (src/read_merging_16S.py line 71). -/
def MIN_OVERLAP : Int := 11

/-- Source constant `MAX_CRED_GAP_LEN = 90` (src/read_merging_16S.py line 84). -/
def MAX_CRED_GAP_LEN : Int := 90

/-- The `too_short` predicate of `merge_reads` (lines 428-429):
`QSTART < SSTART or QEND / len(fseq) < SEND / len(rseq)`.  The `or`
short-circuits, so the divisions only run when the first disjunct is false;
an empty read then raises ZeroDivisionError.  The float comparison is
modelled by exact cross-multiplication (see the header note). -/
def too_short_far (qstart qend sstart send : Int) (flen rlen : Nat) : Except PyErr Bool :=
  if qstart < sstart then .ok true
  else if flen = 0 ∨ rlen = 0 then .error .zeroDiv
  else .ok (decide (qend * rlen < send * flen))

/-- The `rand_align` predicate of `merge_reads` (line 435):
`len(fseq) - QEND > MAX_ALIGN_OFFSET or SSTART > MAX_ALIGN_OFFSET`. -/
def rand_align_far (qend sstart : Int) (flen : Nat) : Bool :=
  decide ((flen : Int) - qend > MAX_ALIGN_OFFSET) || decide (sstart > MAX_ALIGN_OFFSET)

/-- Which branch of `merge_reads` (lines 440-529) a pairwise alignment report
selects. -/
inductive FarBranch
  | normalOverlap
  | randAlign
  | tooShort
  | unforeseen
deriving DecidableEq

/-- The branch selection of `merge_reads` after `_al_ag_one_anoth` (lines
420-529): `reads_normally_overlap = (not too_short) and (not rand_align)`;
then `if reads_normally_overlap: ... elif rand_align: <reference-anchored
fallback> elif too_short: return 2` with an unforeseen-case fallthrough. -/
def classify_far (qstart qend sstart send : Int) (flen rlen : Nat) : Except PyErr FarBranch :=
  match too_short_far qstart qend sstart send flen rlen with
  | .error e => .error e
  | .ok ts =>
    let ra := rand_align_far qend sstart flen
    if !ts && !ra then .ok .normalOverlap
    else if ra then .ok .randAlign
    else if ts then .ok .tooShort
    else .ok .unforeseen

/-- Outcome of the reference-anchored fallback (lines 466-519): `merged`
models `return 0` with the merged pair stored in the globals, `chimera`
models `return 1`, `constCheck loffset overl` marks the call to
`_search_for_constant_region loffset overl ...` (whose verdict depends on a
further external-aligner report), and `fatal` models the unforeseen-case
`return 3`. -/
inductive RefOutcome
  | merged (s q : List Char)
  | chimera
  | constCheck (loffset overl : Int)
  | fatal
deriving DecidableEq

/-- The coordinate analysis of the reference-anchored fallback (lines
466-519): `forw_start = SSTART_f - QSTART_f`, `forw_end = forw_start +
len(fseq)`, `rev_start = SSTART_r - QSTART_r`, `gap = forw_end < rev_start`;
then the if/elif chain on overlap length and gap length. -/
def ref_anchored (sstartF qstartF sstartR qstartR : Int) (fseq fqual rseq rqual : List Char) :
    Except PyErr RefOutcome :=
  let forw_start := sstartF - qstartF
  let forw_end := forw_start + (fseq.length : Int)
  let rev_start := sstartR - qstartR
  let gap : Bool := decide (forw_end < rev_start)
  if !gap && decide (forw_end - rev_start > MIN_OVERLAP) then
    if forw_start < rev_start then .ok (.constCheck (rev_start - forw_start) (forw_end - rev_start))
    else .ok .chimera
  else if !gap && decide (forw_end - rev_start ≤ MIN_OVERLAP) then
    match merge_by_overlap (rev_start - forw_start) (forw_end - rev_start) fseq fqual rseq rqual with
    | .error e => .error e
    | .ok p => .ok (.merged p.1 p.2)
  else if gap then
    let gap_len := rev_start - forw_end
    if gap_len > MAX_CRED_GAP_LEN then .ok .chimera
    else
      .ok (.merged (fseq ++ List.replicate (gap_len - 1).toNat 'N' ++ rseq)
                   (fqual ++ List.replicate (gap_len - 1).toNat (Char.ofNat 33) ++ rqual))
  else .ok .fatal

/-! Helper lemmas about the Python-semantics primitives. -/

theorem pyIndex_lt (l : List Char) (n : Nat) (h : n < l.length) :
    pyIndex l (n : Int) = .ok (l.getD n 'A') := by
  unfold pyIndex
  rw [if_pos (by omega : 0 ≤ (n : Int) ∧ (n : Int) < (l.length : Int))]
  simp

theorem pyIndex_ge (l : List Char) (n : Nat) (h : l.length ≤ n) :
    pyIndex l (n : Int) = .error .indexError := by
  unfold pyIndex
  rw [if_neg (by omega), if_neg (by omega)]

theorem pySliceFrom_nat (l : List Char) (n : Nat) :
    pySliceFrom l (n : Int) = l.drop n := by
  simp only [pySliceFrom, pyEff]
  rw [if_neg (by omega)]
  simp

theorem pySliceTo_nat (l : List Char) (n : Nat) :
    pySliceTo l (n : Int) = l.take n := by
  simp only [pySliceTo, pyEff]
  rw [if_neg (by omega)]
  simp

theorem getD_append_left (t : List Char) :
    ∀ (p : List Char) (n : Nat), n < p.length → (p ++ t).getD n 'A' = p.getD n 'A' := by
  intro p
  induction p with
  | nil => intro n h; simp at h
  | cons a p ih =>
    intro n h
    cases n with
    | zero => rfl
    | succ n => simpa using ih n (by simpa using h)

theorem getD_mem : ∀ (p : List Char) (n : Nat), n < p.length → p.getD n 'A' ∈ p := by
  intro p
  induction p with
  | nil => intro n h; simp at h
  | cons a p ih =>
    intro n h
    cases n with
    | zero => simp
    | succ n =>
      simp only [List.getD_cons_succ]
      exact List.mem_cons_of_mem _ (ih n (by simpa using h))

theorem rc_go_len : ∀ (l l2 : List Char), rc_go l = .ok l2 → l2.length = l.length := by
  intro l
  induction l with
  | nil =>
    intro l2 h
    simp only [rc_go] at h
    injection h with h
    subst h
    rfl
  | cons c rest ih =>
    intro l2 h
    simp only [rc_go] at h
    split at h
    · exact absurd h (by simp)
    · rename_i c2 _
      split at h
      · exact absurd h (by simp)
      · rename_i r2 hr2
        injection h with h
        subst h
        simp [ih r2 hr2]

theorem rc_go_total :
    ∀ (l : List Char), (∀ c ∈ l, c = 'A' ∨ c = 'C' ∨ c = 'G' ∨ c = 'T' ∨ c = 'N') →
      ∃ l2, rc_go l = .ok l2 := by
  intro l
  induction l with
  | nil => intro _; exact ⟨[], rfl⟩
  | cons c rest ih =>
    intro hal
    obtain ⟨l2, hl2⟩ := ih (fun d hd => hal d (List.mem_cons_of_mem _ hd))
    have hc := hal c (List.mem_cons_self _ _)
    have hc2 : ∃ c2, RC_DICT c = .ok c2 := by
      rcases hc with h | h | h | h | h <;> subst h <;> exact ⟨_, rfl⟩
    obtain ⟨c2, hc2⟩ := hc2
    exact ⟨c2 :: l2, by simp only [rc_go, hc2, hl2]⟩

theorem naiveScore_short (seed r : List Char) (shift : Nat) :
    ∀ (rem pos : Nat), seed.length ≤ pos + rem →
      ∃ e, naiveScore seed r shift pos (rem + 1) = .error e := by
  intro rem
  induction rem with
  | zero =>
    intro pos h
    refine ⟨.indexError, ?_⟩
    simp only [naiveScore, pyIndex_ge seed pos (by omega)]
  | succ rem ih =>
    intro pos h
    by_cases hp : pos < seed.length
    · cases h2 : pyIndex r ((pos + shift : Nat) : Int) with
      | error e =>
        exact ⟨e, by simp only [naiveScore, pyIndex_lt seed pos hp, h2]⟩
      | ok c2 =>
        obtain ⟨e, he⟩ := ih (pos + 1) (by omega)
        refine ⟨e, ?_⟩
        simp only [naiveScore] at he ⊢
        rw [pyIndex_lt seed pos hp, h2, he]
    · exact ⟨.indexError, by simp only [naiveScore, pyIndex_ge seed pos (by omega)]⟩

theorem overlap_loop_ok_len (loffset : Int) (f fq r rq : List Char) :
    ∀ (rem j : Nat) (ms mq : List Char),
      overlap_loop loffset f fq r rq j rem = .ok (ms, mq) →
      ms.length = rem ∧ mq.length = rem := by
  intro rem
  induction rem with
  | zero =>
    intro j ms mq h
    simp only [overlap_loop] at h
    injection h with h
    injection h with h1 h2
    subst h1; subst h2
    exact ⟨rfl, rfl⟩
  | succ rem ih =>
    intro j ms mq h
    simp only [overlap_loop] at h
    split at h
    · exact absurd h (by simp)
    · split at h
      · exact absurd h (by simp)
      · split at h
        · exact absurd h (by simp)
        · rename_i q nu _
          split at h
          · exact absurd h (by simp)
          · rename_i ms2 mq2 hrec
            injection h with h
            injection h with h1 h2
            subst h1; subst h2
            have := ih (j + 1) ms2 mq2 hrec
            simp [this.1, this.2]

theorem overlap_loop_total (loffset : Int) (f fq r rq : List Char) :
    ∀ (rem j : Nat), 0 ≤ loffset →
      loffset.toNat + j + rem ≤ f.length → loffset.toNat + j + rem ≤ fq.length →
      j + rem ≤ r.length → j + rem ≤ rq.length →
      ∃ ms mq, overlap_loop loffset f fq r rq j rem = .ok (ms, mq) := by
  intro rem
  induction rem with
  | zero => intro j _ _ _ _ _; exact ⟨[], [], rfl⟩
  | succ rem ih =>
    intro j h0 hf hfq hr hrq
    have hidx : loffset + (j : Int) = ((loffset.toNat + j : Nat) : Int) := by omega
    have h1 : pyIndex fq (loffset + (j : Int)) = .ok (fq.getD (loffset.toNat + j) 'A') := by
      rw [hidx]; exact pyIndex_lt _ _ (by omega)
    have h2 : pyIndex rq ((j : Nat) : Int) = .ok (rq.getD j 'A') := pyIndex_lt _ _ (by omega)
    have h3 : pyIndex f (loffset + (j : Int)) = .ok (f.getD (loffset.toNat + j) 'A') := by
      rw [hidx]; exact pyIndex_lt _ _ (by omega)
    have h4 : pyIndex r ((j : Nat) : Int) = .ok (r.getD j 'A') := pyIndex_lt _ _ (by omega)
    obtain ⟨ms, mq, hrec⟩ := ih (j + 1) h0 (by omega) (by omega) (by omega) (by omega)
    by_cases hcmp : (rq.getD j 'A').toNat ≤ (fq.getD (loffset.toNat + j) 'A').toNat
    · exact ⟨f.getD (loffset.toNat + j) 'A' :: ms, fq.getD (loffset.toNat + j) 'A' :: mq,
        by simp only [overlap_loop, h1, h2, h3, if_pos hcmp, hrec]⟩
    · exact ⟨r.getD j 'A' :: ms, rq.getD j 'A' :: mq,
        by simp only [overlap_loop, h1, h2, h4, if_neg hcmp, hrec]⟩

theorem merge_by_overlap_len (loffset overl : Int) (f fq r rq ms mq : List Char)
    (hf : f.length = fq.length) (hr : r.length = rq.length)
    (h : merge_by_overlap loffset overl f fq r rq = .ok (ms, mq)) :
    ms.length = mq.length := by
  unfold merge_by_overlap at h
  split at h
  · exact absurd h (by simp)
  · rename_i ms2 mq2 hloop
    injection h with h
    injection h with h1 h2
    subst h1; subst h2
    have hlen := overlap_loop_ok_len loffset f fq r rq overl.toNat 0 ms2 mq2 hloop
    simp only [pySliceTo, pySliceFrom, List.length_append, List.length_take, List.length_drop,
      hlen.1, hlen.2, hf, hr]

theorem primerScore1_full (p t : List Char)
    (halpha : ∀ c ∈ p, c = 'A' ∨ c = 'C' ∨ c = 'G' ∨ c = 'T') :
    ∀ (rem pos : Nat), pos + rem ≤ p.length →
      primerScore1 p (p ++ t) 0 pos rem = .ok rem := by
  intro rem
  induction rem with
  | zero => intro pos _; rfl
  | succ rem ih =>
    intro pos h
    have hp : pos < p.length := by omega
    have h1 : pyIndex p ((pos + 0 : Nat) : Int) = .ok (p.getD pos 'A') := by
      rw [Nat.add_zero]; exact pyIndex_lt p pos hp
    have h2 : pyIndex (p ++ t) ((pos : Nat) : Int) = .ok (p.getD pos 'A') := by
      have := pyIndex_lt (p ++ t) pos (by simp; omega)
      rwa [getD_append_left t p pos hp] at this
    have hc := halpha (p.getD pos 'A') (getD_mem p pos hp)
    have h3 : ∃ L, MATCH_DICT (p.getD pos 'A') = .ok L ∧ p.getD pos 'A' ∈ L := by
      rcases hc with hcc | hcc | hcc | hcc <;> rw [hcc] <;> exact ⟨_, rfl, by decide⟩
    obtain ⟨L, hL, hmem⟩ := h3
    have hrec := ih (pos + 1) (by omega)
    simp only [primerScore1, h1, h2, hL, hrec, if_pos hmem]
    rw [Nat.add_comm]

/-- C2: the Primer Scanner does not terminate normally on all inputs.
Scanning primer "ACGT" (length 4, so that shift 4 gives an empty overlap
span) against read "CCCC" raises ZeroDivisionError, and scanning primer
"AAAAAA" against the shorter read "AA" raises IndexError instead of
restricting the comparison span. -/
theorem C2_crash :
    find_primer 4 13 25 false ["ACGT".toList] ⟨"CCCC".toList, "IIII".toList⟩ =
      .error .zeroDiv ∧
    find_primer 4 13 25 false ["AAAAAA".toList] ⟨"AA".toList, "II".toList⟩ =
      .error .indexError :=
  ⟨rfl, rfl⟩

/-- C6: primer "ACGT" against read "TTACGTTT" with max shift 4 and threshold
0.52 matches (at shift 2 in the read-shifted direction, so the trial slices
off `len(primer) - 2 = 2` leading bases), and with trimming enabled the
returned read is "ACGTTT" with the quality string trimmed in lock-step. -/
theorem C6_scenario :
    find_primer 4 13 25 true ["ACGT".toList] ⟨"TTACGTTT".toList, "IIIIIIII".toList⟩ =
      .ok (true, ⟨"ACGTTT".toList, "IIIIII".toList⟩, []) :=
  rfl

/-- C7 counterexample: the primer "NA" over the claim's alphabet {A,C,G,T,N}
is an exact prefix of the read "NAAA", yet with threshold 0.52 the scanner
does not report the match at shift 0 with trim offset `len(p) = 2`: the
shift-0 trial scores 1/2 < 0.52 because N matches nothing, and the match is
instead found at shift 1 in the read-shifted direction, trimming only one
base ("AAA" instead of the claimed "AA"). -/
theorem C7_counterexample :
    find_primer 4 13 25 true ["NA".toList] ⟨"NAAA".toList, "IIII".toList⟩ =
      .ok (true, ⟨"AAA".toList, "III".toList⟩, []) ∧
    "AAA".toList ≠ "AA".toList :=
  ⟨rfl, by decide⟩

/-- C7 (amended): for every nonempty primer `p` over the concrete alphabet
{A,C,G,T} that is an exact prefix of the read, and any recognition threshold
`num/den ≤ 1`, the scanner reports a match on the very first trial (shift 0,
primer-shifted direction) and, with trimming enabled, removes exactly
`len(p)` characters from sequence and quality string. -/
theorem C7_amended (p t rq : List Char) (num den maxShift : Nat)
    (hp : p ≠ [])
    (halpha : ∀ c ∈ p, c = 'A' ∨ c = 'C' ∨ c = 'G' ∨ c = 'T')
    (hnd : num ≤ den) :
    find_primer maxShift num den true [p] ⟨p ++ t, rq⟩ =
      .ok (true, ⟨t, rq.drop p.length⟩, []) := by
  have hplen : 0 < p.length := List.length_pos.mpr hp
  have hscore := primerScore1_full p t halpha p.length 0 (by omega)
  have hrat : ratGE p.length ((p.length : Int) - ((0 : Nat) : Int)) num den = .ok true := by
    unfold ratGE
    rw [if_neg (by omega), if_pos (by omega)]
    have harith : num * ((p.length : Int) - ((0 : Nat) : Int)).toNat ≤ p.length * den := by
      have h1 : ((p.length : Int) - ((0 : Nat) : Int)).toNat = p.length := by omega
      rw [h1, Nat.mul_comm p.length den]
      exact Nat.mul_le_mul_right _ hnd
    rw [decide_eq_true harith]
  have hshift : scan_shift num den true p ⟨p ++ t, rq⟩ 0 = .ok (some ⟨t, rq.drop p.length⟩) := by
    simp only [scan_shift, Nat.sub_zero, hscore, hrat, trim, if_true]
    have hcut : ((p.length : Int) - ((0 : Nat) : Int)) = ((p.length : Nat) : Int) := by omega
    rw [hcut, pySliceFrom_nat, pySliceFrom_nat, List.drop_left]
  simp only [find_primer, scanPrimer, scanPrimer_go, hshift]

/-- C7 witness (concrete scenario 1): primer "ACGT" is an exact prefix of
"ACGTTTTT"; at threshold 0.52 and max shift 4 the match is found at shift 0
and trimming yields "TTTT". -/
theorem C7_amended_witness :
    find_primer 4 13 25 true ["ACGT".toList] ⟨"ACGTTTTT".toList, "IIIIIIII".toList⟩ =
      .ok (true, ⟨"TTTT".toList, "IIII".toList⟩, []) :=
  C7_amended "ACGT".toList "TTTT".toList "IIIIIIII".toList 13 25 4
    (by decide) (by decide) (by decide)

/-- C1: the per-pair kept/trash classification is NOT order-independent.
`rev_primers = reversed(primers)` (src/preprocess16S.py line 869) is a
one-shot iterator threaded through successive `find_primer` calls.  With
primers ["AAAAAA", "CCCCCC"], pair A = (R1 "GGGGGGGG", R2 "AAAAAAAA") and
pair B = (R1 "GGGGGGGG", R2 "CCCCCCCC"), processing [A, B] keeps both pairs
(match = 2, trash = 0), while processing [B, A] keeps B but trashes A
(match = 1, trash = 1): both the per-pair classification of pair A and the
final counters depend on the processing order. -/
theorem C1_order_dependence :
    processPairs 4 13 25 false ["AAAAAA".toList, "CCCCCC".toList]
      [(⟨"GGGGGGGG".toList, "IIIIIIII".toList⟩, ⟨"AAAAAAAA".toList, "IIIIIIII".toList⟩),
       (⟨"GGGGGGGG".toList, "IIIIIIII".toList⟩, ⟨"CCCCCCCC".toList, "IIIIIIII".toList⟩)]
      ["AAAAAA".toList, "CCCCCC".toList] = .ok ([true, true], 2, 0) ∧
    processPairs 4 13 25 false ["AAAAAA".toList, "CCCCCC".toList]
      [(⟨"GGGGGGGG".toList, "IIIIIIII".toList⟩, ⟨"CCCCCCCC".toList, "IIIIIIII".toList⟩),
       (⟨"GGGGGGGG".toList, "IIIIIIII".toList⟩, ⟨"AAAAAAAA".toList, "IIIIIIII".toList⟩)]
      ["AAAAAA".toList, "CCCCCC".toList] = .ok ([true, false], 1, 1) :=
  ⟨rfl, rfl⟩

/-- C3 counterexample: the alignment report with QSTART = 1, QEND = 60,
SSTART = 50, SEND = 90 over reads of length 100 satisfies both the too-short
condition (QSTART < SSTART) and the off-center condition (SSTART > 40), yet
`merge_reads` selects the `rand_align` branch (entering the
reference-anchored fallback), not the TooShort outcome. -/
theorem C3_counterexample :
    classify_far 1 60 50 90 100 100 = .ok .randAlign ∧
    too_short_far 1 60 50 90 100 100 = .ok true ∧
    rand_align_far 60 50 100 = true ∧
    FarBranch.randAlign ≠ FarBranch.tooShort :=
  ⟨rfl, rfl, rfl, by decide⟩

/-- C3 (amended): when an alignment report satisfies both the too-short and
the off-center condition, the source's `elif rand_align` is evaluated before
`elif too_short`, so the off-center branch wins: the reference-anchored
fallback is entered and the outcome is not TooShort. -/
theorem C3_amended (qstart qend sstart send : Int) (flen rlen : Nat)
    (hts : too_short_far qstart qend sstart send flen rlen = .ok true)
    (hra : rand_align_far qend sstart flen = true) :
    classify_far qstart qend sstart send flen rlen = .ok .randAlign := by
  simp [classify_far, hts, hra]

/-- C3 witness: the amended claim applied to the concrete report of the
counterexample. -/
theorem C3_amended_witness : classify_far 2 80 45 90 100 100 = .ok .randAlign :=
  C3_amended 2 80 45 90 100 100 rfl rfl

/-- C4 counterexample: with seed length 4 the naive aligner's seed slice on
forward read "AAAACCCCGGGG" is `fseq[len - 4 - 1 :] = "CGGGG"` (the last
SEED_LEN + 1 bases), not the last four bases "GGGG", and the accepted shift
against "CCGGGGTTTT" is 1, not the claimed 2. -/
theorem C4_counterexample :
    naive_align 4 120 "AAAACCCCGGGG".toList "CCGGGGTTTT".toList = .ok 1 ∧
    (1 : Int) ≠ 2 ∧
    naive_align_seed 4 "AAAACCCCGGGG".toList = "CGGGG".toList ∧
    "CGGGG".toList ≠ "GGGG".toList :=
  ⟨rfl, by decide, rfl, by decide⟩

theorem pyIndex_ok_bounds (l : List Char) (i : Int) (c : Char)
    (h : pyIndex l i = .ok c) : -(l.length : Int) ≤ i ∧ i < l.length := by
  unfold pyIndex at h
  split at h
  · omega
  · split at h
    · omega
    · exact absurd h (by simp)

theorem overlap_loop_rq_bound (loffset : Int) (f fq r rq : List Char) :
    ∀ (rem j : Nat) (ms mq : List Char),
      overlap_loop loffset f fq r rq j rem = .ok (ms, mq) →
      j + rem ≤ rq.length ∨ rem = 0 := by
  intro rem
  induction rem with
  | zero => intro j ms mq _; exact Or.inr rfl
  | succ rem ih =>
    intro j ms mq h
    simp only [overlap_loop] at h
    split at h
    · exact absurd h (by simp)
    · split at h
      · exact absurd h (by simp)
      · rename_i rqc hrqc
        split at h
        · exact absurd h (by simp)
        · split at h
          · exact absurd h (by simp)
          · rename_i ms2 mq2 hrec
            have hj := (pyIndex_ok_bounds rq (j : Int) rqc hrqc).2
            rcases ih (j + 1) ms2 mq2 hrec with h2 | h2
            · left; omega
            · left; omega

theorem overlap_loop_fq_low (loffset : Int) (f fq r rq : List Char) :
    ∀ (rem j : Nat) (ms mq : List Char), 1 ≤ rem →
      overlap_loop loffset f fq r rq j rem = .ok (ms, mq) →
      -(fq.length : Int) ≤ loffset + j := by
  intro rem j ms mq hrem h
  obtain ⟨rem2, rfl⟩ : ∃ m, rem = m + 1 := ⟨rem - 1, by omega⟩
  simp only [overlap_loop] at h
  split at h
  · exact absurd h (by simp)
  · rename_i fqc hfqc
    exact (pyIndex_ok_bounds fq (loffset + (j : Int)) fqc hfqc).1

theorem naive_align_pos_seed (seedLen maxShift : Nat) (f r : List Char) (s : Int)
    (h : naive_align seedLen maxShift f r = .ok s) (hs : 0 ≤ s) : 1 ≤ seedLen := by
  by_contra h0
  have hz : seedLen = 0 := by omega
  subst hz
  cases maxShift with
  | zero =>
    rw [show naive_align 0 0 f r = .ok (-1) from rfl] at h
    injection h with h
    omega
  | succ m =>
    rw [show naive_align 0 (m + 1) f r = .error .zeroDiv from rfl] at h
    exact absurd h (by simp)

/-- C4 (amended): the naive alignment's seed is `fseq[len(fseq)-SEED_LEN-1:]`
(the last SEED_LEN + 1 bases, of which the first SEED_LEN are scored), not
the last SEED_LEN bases, and in the concrete scenario the accepted shift is 1.
Every merge the naive branch accepts (shift `s`, `overl = s + SEED_LEN`,
`loffset = len(fseq) - overl - 1`) produces a merged sequence of total
length `len(forward) + len(reverse) - (s + SEED_LEN) - 1` when
`loffset ≥ 0`, and `2*len(forward) + len(reverse) - (s + SEED_LEN) - 1` when
`loffset < 0` (Python's negative slice bound and wrapped indices then
re-read the forward read's tail); in both regimes the merged quality string
has the same length as the merged sequence. -/
theorem C4_amended (seedLen maxShift : Nat) (f fq r2 rq2 r : List Char) (s : Int)
    (ms mq : List Char)
    (hrc : rc r2 = .ok r)
    (hfq : f.length = fq.length) (hrq : r2.length = rq2.length)
    (hna : naive_align seedLen maxShift f r = .ok s) (hs : 0 ≤ s)
    (hphase : merge_reads_phase1 seedLen maxShift f fq r2 rq2 = .ok (.mergedOk (ms, mq))) :
    ms.length = (if 0 ≤ (f.length : Int) - (s + (seedLen : Int)) - 1
      then f.length + r.length - (s.toNat + seedLen) - 1
      else 2 * f.length + r.length - (s.toNat + seedLen) - 1) ∧
    mq.length = ms.length := by
  have hseed1 : 1 ≤ seedLen := naive_align_pos_seed seedLen maxShift f r s hna hs
  have hsne : ¬(s = -1) := by omega
  have hrlen : r.length = r2.length := by
    have := rc_go_len r2.reverse r hrc
    simpa using this
  have hrqlen : (rq2.reverse).length = r.length := by
    rw [List.length_reverse, ← hrq, ← hrlen]
  simp only [merge_reads_phase1, hrc, hna, hsne, if_false] at hphase
  split at hphase
  · exact absurd hphase (by simp)
  · rename_i p hmerge
    injection hphase with hphase
    injection hphase with hphase
    subst hphase
    unfold merge_by_overlap at hmerge
    split at hmerge
    · exact absurd hmerge (by simp)
    · rename_i ms0 mq0 hloop
      injection hmerge with hmerge
      injection hmerge with h1 h2
      subst h1; subst h2
      have hlen0 := overlap_loop_ok_len ((f.length : Int) - (s + (seedLen : Int)) - 1) f fq r
        rq2.reverse ((s + (seedLen : Int)).toNat) 0 ms0 mq0 hloop
      have hovne : (s + (seedLen : Int)).toNat ≠ 0 := by omega
      have hrqb := overlap_loop_rq_bound ((f.length : Int) - (s + (seedLen : Int)) - 1) f fq r
        rq2.reverse ((s + (seedLen : Int)).toNat) 0 ms0 mq0 hloop
      have hrqb2 : (s + (seedLen : Int)).toNat ≤ r.length := by
        rcases hrqb with h2 | h2
        · omega
        · exact absurd h2 hovne
      have hlow := overlap_loop_fq_low ((f.length : Int) - (s + (seedLen : Int)) - 1) f fq r
        rq2.reverse ((s + (seedLen : Int)).toNat) 0 ms0 mq0 (by omega) hloop
      have hlow2 : 0 ≤ (f.length : Int) + ((f.length : Int) - (s + (seedLen : Int)) - 1) := by
        omega
      have etail : (pySliceFrom r (s + (seedLen : Int))).length =
          r.length - (s + (seedLen : Int)).toNat := by
        simp only [pySliceFrom, List.length_drop]
        congr 1
        unfold pyEff
        rw [if_neg (by omega)]
      have etailq : (pySliceFrom rq2.reverse (s + (seedLen : Int))).length =
          rq2.reverse.length - (s + (seedLen : Int)).toNat := by
        simp only [pySliceFrom, List.length_drop]
        congr 1
        unfold pyEff
        rw [if_neg (by omega)]
      have hpeq : pyEff fq.length ((f.length : Int) - (s + (seedLen : Int)) - 1) =
          pyEff f.length ((f.length : Int) - (s + (seedLen : Int)) - 1) := by
        rw [hfq]
      have epre : (pySliceTo f ((f.length : Int) - (s + (seedLen : Int)) - 1)).length =
          min (pyEff f.length ((f.length : Int) - (s + (seedLen : Int)) - 1)) f.length := by
        simp [pySliceTo]
      have epreq : (pySliceTo fq ((f.length : Int) - (s + (seedLen : Int)) - 1)).length =
          min (pyEff f.length ((f.length : Int) - (s + (seedLen : Int)) - 1)) fq.length := by
        simp [pySliceTo, hpeq]
      constructor
      · by_cases hpos : 0 ≤ (f.length : Int) - (s + (seedLen : Int)) - 1
        · rw [if_pos hpos]
          have hv : pyEff f.length ((f.length : Int) - (s + (seedLen : Int)) - 1) =
              ((f.length : Int) - (s + (seedLen : Int)) - 1).toNat := by
            unfold pyEff
            rw [if_neg (by omega)]
          simp only [List.length_append, epre, etail, hlen0.1, hv]
          rw [Nat.min_eq_left (by omega)]
          omega
        · rw [if_neg hpos]
          have hv : pyEff f.length ((f.length : Int) - (s + (seedLen : Int)) - 1) =
              ((f.length : Int) + ((f.length : Int) - (s + (seedLen : Int)) - 1)).toNat := by
            unfold pyEff
            rw [if_pos (by omega)]
          simp only [List.length_append, epre, etail, hlen0.1, hv]
          rw [Nat.min_eq_left (by omega)]
          omega
      · simp only [List.length_append, epre, epreq, etail, etailq, hlen0.1, hlen0.2]
        rw [← hfq, hrqlen]

/-- C4 witness: both length regimes.  Scenario 3 (seed length 4): forward
"AAAACCCCGGGG" with raw reverse "AAAACCCCGG" (reverse complement
"CCGGGGTTTT") merges at shift 1 with loffset = 6 ≥ 0 and total length
12 + 10 - 5 - 1 = 16.  With the source seed length 11: forward 12×A with
raw reverse "TTTTTTTTTTTAA" (reverse complement "TTAAAAAAAAAAA") merges at
shift 1 with loffset = -1 < 0 and total length 2*12 + 13 - 12 - 1 = 24. -/
theorem C4_amended_witness :
    merge_reads_phase1 4 120 "AAAACCCCGGGG".toList "IIIIIIIIIIII".toList
      "AAAACCCCGG".toList "IIIIIIIIII".toList =
      .ok (.mergedOk ("AAAACCCCGGGGTTTT".toList, "IIIIIIIIIIIIIIII".toList)) ∧
    ("AAAACCCCGGGGTTTT".toList.length = 12 + 10 - (1 + 4) - 1 ∧
     "IIIIIIIIIIIIIIII".toList.length = "AAAACCCCGGGGTTTT".toList.length) ∧
    merge_reads_phase1 11 120 (List.replicate 12 'A') (List.replicate 12 'I')
      "TTTTTTTTTTTAA".toList (List.replicate 13 'I') =
      .ok (.mergedOk (List.replicate 24 'A', List.replicate 24 'I')) ∧
    ((List.replicate 24 'A').length = 2 * 12 + 13 - (1 + 11) - 1 ∧
     (List.replicate 24 'I').length = (List.replicate 24 'A').length) :=
  by
  refine ⟨rfl, ?_, rfl, ?_⟩
  · exact C4_amended 4 120 "AAAACCCCGGGG".toList "IIIIIIIIIIII".toList
      "AAAACCCCGG".toList "IIIIIIIIII".toList "CCGGGGTTTT".toList 1
      "AAAACCCCGGGGTTTT".toList "IIIIIIIIIIIIIIII".toList
      rfl rfl rfl rfl (by decide) rfl
  · exact C4_amended 11 120 (List.replicate 12 'A') (List.replicate 12 'I')
      "TTTTTTTTTTTAA".toList (List.replicate 13 'I') "TTAAAAAAAAAAA".toList 1
      (List.replicate 24 'A') (List.replicate 24 'I')
      rfl rfl rfl rfl (by decide) rfl

/-- C5 counterexample: reference-frame coordinates with no gap and a short
overlap (forw_start = 0, forw_end = 20, rev_start = 15, overlap 5 ≤
MIN_OVERLAP) make `merge_reads` merge the pair and return Merged, not
Chimera as the claim states. -/
theorem C5_counterexample :
    ref_anchored 5 5 16 1 (List.replicate 20 'A') (List.replicate 20 'I')
      (List.replicate 20 'C') (List.replicate 20 'I') =
      .ok (.merged (List.replicate 20 'A' ++ List.replicate 15 'C') (List.replicate 35 'I')) ∧
    RefOutcome.merged (List.replicate 20 'A' ++ List.replicate 15 'C') (List.replicate 35 'I') ≠
      RefOutcome.chimera :=
  ⟨rfl, by decide⟩

/-- C5 (amended): in the reference-anchored fallback with no gap, the outcome
is Chimera exactly when the overlap exceeds MIN_OVERLAP and the forward read
does not start before the reverse read; when the overlap is at most
MIN_OVERLAP the source merges by overlap and returns Merged instead. -/
theorem C5_amended :
    (∀ (sF qF sR qR : Int) (f fq r rq : List Char),
      ¬(sF - qF + (f.length : Int) < sR - qR) →
      sF - qF + (f.length : Int) - (sR - qR) > MIN_OVERLAP →
      ¬(sF - qF < sR - qR) →
      ref_anchored sF qF sR qR f fq r rq = .ok .chimera) ∧
    (∀ (sF qF sR qR : Int) (f fq r rq : List Char),
      ¬(sF - qF + (f.length : Int) < sR - qR) →
      sF - qF + (f.length : Int) - (sR - qR) ≤ MIN_OVERLAP →
      ref_anchored sF qF sR qR f fq r rq =
        match merge_by_overlap ((sR - qR) - (sF - qF)) (sF - qF + (f.length : Int) - (sR - qR))
            f fq r rq with
        | .error e => .error e
        | .ok p => .ok (.merged p.1 p.2)) := by
  constructor
  · intro sF qF sR qR f fq r rq hng hov hfs
    have hg : decide (sF - qF + (f.length : Int) < sR - qR) = false := decide_eq_false hng
    simp only [ref_anchored, hg, Bool.not_false, Bool.true_and, decide_eq_true hov,
      if_true, if_neg hfs]
  · intro sF qF sR qR f fq r rq hng hle
    have hg : decide (sF - qF + (f.length : Int) < sR - qR) = false := decide_eq_false hng
    have hnov : ¬(sF - qF + (f.length : Int) - (sR - qR) > MIN_OVERLAP) := by omega
    simp only [ref_anchored, hg, Bool.not_false, Bool.true_and, decide_eq_false hnov,
      decide_eq_true hle]
    simp

/-- C5 witness: the amended claim at concrete coordinates — overlap 20 > 11
with forw_start = rev_start gives Chimera, and overlap 5 ≤ 11 gives Merged
via merge-by-overlap. -/
theorem C5_amended_witness :
    ref_anchored 1 1 5 5 (List.replicate 20 'A') (List.replicate 20 'I')
      (List.replicate 20 'C') (List.replicate 20 'I') = .ok .chimera ∧
    ref_anchored 6 1 21 1 (List.replicate 20 'A') (List.replicate 20 'I')
      (List.replicate 20 'C') (List.replicate 20 'I') =
      .ok (.merged (List.replicate 20 'A' ++ List.replicate 15 'C') (List.replicate 35 'I')) :=
  ⟨C5_amended.1 1 1 5 5 _ _ _ _ (by decide) (by decide) (by decide),
   C5_amended.2 6 1 21 1 (List.replicate 20 'A') (List.replicate 20 'I')
     (List.replicate 20 'C') (List.replicate 20 'I') (by decide) (by decide)⟩

/-- C8: in the reference-anchored fallback, whenever the forward read's
aligned end lies strictly before the reverse read's aligned start, a gap
longer than MAX_CRED_GAP_LEN yields Chimera, and otherwise the outcome is
Merged with the reads joined by a run of 'N' bases whose inserted positions
all carry `chr(33)` = '!', the lowest Phred33 quality character. -/
theorem C8_gap (sF qF sR qR : Int) (f fq r rq : List Char)
    (hgap : sF - qF + (f.length : Int) < sR - qR) :
    (sR - qR - (sF - qF + (f.length : Int)) > MAX_CRED_GAP_LEN →
      ref_anchored sF qF sR qR f fq r rq = .ok .chimera) ∧
    (sR - qR - (sF - qF + (f.length : Int)) ≤ MAX_CRED_GAP_LEN →
      ref_anchored sF qF sR qR f fq r rq =
        .ok (.merged
          (f ++ List.replicate (sR - qR - (sF - qF + (f.length : Int)) - 1).toNat 'N' ++ r)
          (fq ++ List.replicate (sR - qR - (sF - qF + (f.length : Int)) - 1).toNat
            (Char.ofNat 33) ++ rq))) := by
  have hg : decide (sF - qF + (f.length : Int) < sR - qR) = true := decide_eq_true hgap
  constructor
  · intro hlong
    simp only [ref_anchored, hg, Bool.not_true, Bool.false_and]
    simp [if_pos hlong]
  · intro hshort
    have hn : ¬(sR - qR - (sF - qF + (f.length : Int)) > MAX_CRED_GAP_LEN) := by omega
    simp only [ref_anchored, hg, Bool.not_true, Bool.false_and]
    simp [if_neg hn]

/-- C8 witness: gap of length 130 > 90 gives Chimera; gap of length 10 ≤ 90
gives Merged with nine inserted 'N' bases at quality '!'. -/
theorem C8_gap_witness :
    ref_anchored 0 0 150 0 (List.replicate 20 'A') (List.replicate 20 'I')
      (List.replicate 8 'C') (List.replicate 8 'I') = .ok .chimera ∧
    ref_anchored 0 0 30 0 (List.replicate 20 'A') (List.replicate 20 'I')
      (List.replicate 8 'C') (List.replicate 8 'I') =
      .ok (.merged (List.replicate 20 'A' ++ List.replicate 9 'N' ++ List.replicate 8 'C')
                   (List.replicate 20 'I' ++ List.replicate 9 '!' ++ List.replicate 8 'I')) :=
  ⟨(C8_gap 0 0 150 0 _ _ _ _ (by decide)).1 (by decide),
   (C8_gap 0 0 30 0 (List.replicate 20 'A') (List.replicate 20 'I')
     (List.replicate 8 'C') (List.replicate 8 'I') (by decide)).2 (by decide)⟩

/-- C9: for every read pair over the data model's alphabet in which both
reads are shorter than SEED_LEN = 11, `merge_reads` raises inside
`_naive_align` (the seed slice is shorter than SEED_LEN, so the scoring loop
indexes past its end already at shift 0), the bare `except` turns this into
an immediate `return 2` (TooShort), and control never reaches
`_al_ag_one_anoth`, so no external-aligner call is attempted. -/
theorem C9_short_pair (f fq r2 rq2 : List Char)
    (hf : f.length < 11) (hr : r2.length < 11)
    (hal : ∀ c ∈ r2, c = 'A' ∨ c = 'C' ∨ c = 'G' ∨ c = 'T' ∨ c = 'N') :
    merge_reads_phase1 11 120 f fq r2 rq2 = .ok .tooShort := by
  obtain ⟨rr, hrr⟩ := rc_go_total r2.reverse (fun c hc => hal c (List.mem_reverse.mp hc))
  have hseedlen : (naive_align_seed 11 f).length ≤ 10 := by
    have h1 : (naive_align_seed 11 f).length ≤ f.length := by
      simp only [naive_align_seed, pySliceFrom, List.length_drop]
      omega
    omega
  obtain ⟨e, he⟩ := naiveScore_short (naive_align_seed 11 f) rr 0 10 0 (by omega)
  have he11 : naiveScore (naive_align_seed 11 f) rr 0 0 11 = .error e := he
  have hna : naive_align 11 120 f rr = .error e := by
    show naive_align_go (naive_align_seed 11 f) rr 11 0 (119 + 1) = .error e
    simp only [naive_align_go, he11]
  simp only [merge_reads_phase1, rc, hrr, hna]

/-- C9 witness: a concrete pair of length-5 reads is classified TooShort
before any aligner interaction. -/
theorem C9_short_pair_witness :
    merge_reads_phase1 11 120 "ACGTA".toList "IIIII".toList "ACGTT".toList "IIIII".toList =
      .ok .tooShort :=
  C9_short_pair "ACGTA".toList "IIIII".toList "ACGTT".toList "IIIII".toList
    (by decide) (by decide) (by decide)

/-- C10: every Merged outcome preserves the sequence/quality length
invariant.  Part one: whenever `_merge_by_overlap` succeeds (any left offset
and overlap, the callers being the naive branch, the normal-overlap branch
and the short-overlap branch), the merged sequence and quality string have
equal length, provided each input read satisfies the invariant.  Part two:
the same for every Merged outcome of the reference-anchored fallback,
including the gap-filling path. -/
theorem C10_length_invariant :
    (∀ (loffset overl : Int) (f fq r rq ms mq : List Char),
      f.length = fq.length → r.length = rq.length →
      merge_by_overlap loffset overl f fq r rq = .ok (ms, mq) → ms.length = mq.length) ∧
    (∀ (sF qF sR qR : Int) (f fq r rq ms mq : List Char),
      f.length = fq.length → r.length = rq.length →
      ref_anchored sF qF sR qR f fq r rq = .ok (.merged ms mq) → ms.length = mq.length) := by
  constructor
  · exact fun loffset overl f fq r rq ms mq hf hr h =>
      merge_by_overlap_len loffset overl f fq r rq ms mq hf hr h
  · intro sF qF sR qR f fq r rq ms mq hf hr h
    simp only [ref_anchored] at h
    split at h
    · split at h <;> exact absurd h (by simp)
    · split at h
      · split at h
        · exact absurd h (by simp)
        · rename_i p hp
          injection h with h
          injection h with h1 h2
          subst h1; subst h2
          exact merge_by_overlap_len _ _ f fq r rq _ _ hf hr (by rw [hp])
      · split at h
        · split at h
          · exact absurd h (by simp)
          · injection h with h
            injection h with h1 h2
            subst h1; subst h2
            simp [hf, hr]
        · exact absurd h (by simp)

/-- C10 witness: both parts applied to concrete successful merges — a direct
merge-by-overlap with left offset 2 and overlap 2, and a gap-filling Merged
outcome of the reference-anchored fallback. -/
theorem C10_length_invariant_witness :
    merge_by_overlap 2 2 "AACC".toList "IIII".toList "CCGG".toList "JJJJ".toList =
      .ok ("AACCGG".toList, "IIJJJJ".toList) ∧
    "AACCGG".toList.length = "IIJJJJ".toList.length ∧
    ref_anchored 0 0 30 0 (List.replicate 20 'A') (List.replicate 20 'I')
      (List.replicate 8 'C') (List.replicate 8 'I') =
      .ok (.merged (List.replicate 20 'A' ++ List.replicate 9 'N' ++ List.replicate 8 'C')
                   (List.replicate 20 'I' ++ List.replicate 9 '!' ++ List.replicate 8 'I')) ∧
    (List.replicate 20 'A' ++ List.replicate 9 'N' ++ List.replicate 8 'C').length =
      (List.replicate 20 'I' ++ List.replicate 9 '!' ++ List.replicate 8 'I').length :=
  ⟨rfl,
   C10_length_invariant.1 2 2 "AACC".toList "IIII".toList "CCGG".toList "JJJJ".toList
     "AACCGG".toList "IIJJJJ".toList rfl rfl rfl,
   rfl,
   C10_length_invariant.2 0 0 30 0 (List.replicate 20 'A') (List.replicate 20 'I')
     (List.replicate 8 'C') (List.replicate 8 'I') _ _ rfl rfl rfl⟩
